import Mathlib

/-!
Shallow embedding of the `hey-listen` audio ingestion pipeline.

Sources embedded here:
- `src/audio_worker.py` (`AudioWorker`): the retry ingestion client
  (`ingest_to_senso`, wrapped in a tenacity `retry` decorator), the speaker
  tagger (`diarize`) and the main loop body (`run`).
- `src/pinecone_manager.py` (`PineconeManager`): the async store gateway
  (`store_transcription_async`, `check_storage_status`,
  `_upsert_transcription_sync`) and the capacity enforcer
  (`_should_evict`, `_evict_one_candidate`).

Modelling conventions:
- Python floats that the claims only compare (timestamps) are modelled as `ℚ`.
- A Python call that may raise is modelled as `Except PyExn _` or as an
  `Option`/`Bool` outcome supplied by an environment record; `try/except`
  blocks become pattern matches on those outcomes.
- Python truthiness of strings (`if not s`) is modelled explicitly
  (`pyFalsyStr`, `pyOrStr`), and `str.strip()` is modelled by `pyStrip`.
-/

namespace HeyListen

/-- A Python exception (its payload is irrelevant to the claims). -/
inductive PyExn where
  | err
deriving DecidableEq, Repr

/-- Python `str.isspace` characters relevant to `str.strip()` (ASCII range). -/
def pyIsSpace (c : Char) : Bool :=
  c == ' ' || c == '\t' || c == '\n' || c == '\r' ||
    c == Char.ofNat 11 || c == Char.ofNat 12

/-- Python `text.strip()`: drop leading and trailing whitespace. -/
def pyStrip (s : String) : String :=
  ⟨((s.data.dropWhile pyIsSpace).reverse.dropWhile pyIsSpace).reverse⟩

/-- Python truthiness test `not s` for an optional string: `None` and the
empty string are falsy. -/
def pyFalsyStr (s : Option String) : Bool :=
  match s with
  | none => true
  | some t => t == ""

/-- Python `a or b` for an optional string `a` with string fallback `b`
(`None` and `""` are falsy). -/
def pyOrStr (a : Option String) (b : String) : String :=
  match a with
  | some s => if s = "" then b else s
  | none => b

/-! ## Futures (`concurrent.futures`) as seen by `check_storage_status` -/

/-- The outcome held by a completed future: the task returned a boolean, or
the task raised. -/
inductive TaskOutcome where
  | ok (b : Bool)
  | exn
deriving DecidableEq, Repr

/-- The observable state of a future at one instant: still running, or done
with an outcome. -/
inductive FutureState where
  | pending
  | done (r : TaskOutcome)
deriving DecidableEq, Repr

/-- `PineconeManager.check_storage_status(future)`: `None` handle is
`skipped`; a not-yet-done future is `pending`; a completed future maps its
boolean result to `success`/`failed`, and a raised exception to `error`. -/
def check_storage_status (future : Option FutureState) : String :=
  match future with
  | none => "skipped"
  | some FutureState.pending => "pending"
  | some (FutureState.done (TaskOutcome.ok true)) => "success"
  | some (FutureState.done (TaskOutcome.ok false)) => "failed"
  | some (FutureState.done TaskOutcome.exn) => "error"

/-- The lifetime of one future: its state at successive observation instants.
`stable` is the `concurrent.futures` guarantee that a completed future stays
completed with the same result. -/
structure FutureTimeline where
  state : Nat → FutureState
  stable : ∀ t r, state t = FutureState.done r → state (t + 1) = FutureState.done r

/-- Once a timeline is done, it stays done with the same outcome at every
later instant. -/
theorem FutureTimeline.stable_ge (f : FutureTimeline) {t u : Nat} (h : t ≤ u)
    {r : TaskOutcome} (ht : f.state t = FutureState.done r) :
    f.state u = FutureState.done r := by
  induction u with
  | zero =>
    have : t = 0 := Nat.le_zero.mp h
    simpa [this] using ht
  | succ n ih =>
    rcases Nat.lt_or_ge t (n + 1) with hlt | hge
    · exact f.stable n r (ih (Nat.lt_succ_iff.mp hlt))
    · have : t = n + 1 := Nat.le_antisymm h hge
      simpa [this] using ht

/-! ## Capacity enforcer (`_should_evict`, `_evict_one_candidate`) -/

/-- `PineconeManager._should_evict`: given the reported
`total_vector_count` (`none` when the stats call raised or the count is
absent), the source computes `bool(total and int(total) >= self.max_records)`
— Python truthiness makes a reported count of `0` (or `None`) falsy. -/
def _should_evict (maxRecords : ℤ) (total : Option ℤ) : Bool :=
  match total with
  | none => false
  | some t => (!(t == 0)) && decide (maxRecords ≤ t)

/-- One match returned by `index.query`: `id` is the attribute
`getattr(m, "id", None)`, `metaId` is `metadata.get("id")`, and `timestamp`
is `metadata.get("timestamp")` (absent when the metadata lacks the field). -/
structure EMatch where
  id : Option String
  metaId : Option String
  timestamp : Option ℚ
deriving DecidableEq, Repr

/-- The id the source extracts from a match:
`getattr(m, "id", None) or meta.get("id") or ""`. -/
def matchId (m : EMatch) : String :=
  pyOrStr m.id (pyOrStr m.metaId "")

/-- Python `min(x :: xs, key=k)`: the first element attaining the minimal
key (a later element replaces the current best only on a strictly smaller
key). -/
def pyMinBy {α : Type} (key : α → ℚ) (best : α) : List α → α
  | [] => best
  | x :: xs => if key x < key best then pyMinBy key x xs else pyMinBy key best xs

theorem pyMinBy_mem {α : Type} (key : α → ℚ) (b : α) (l : List α) :
    pyMinBy key b l = b ∨ pyMinBy key b l ∈ l := by
  induction l generalizing b with
  | nil => exact Or.inl rfl
  | cons x xs ih =>
    simp only [pyMinBy]
    by_cases h : key x < key b
    · rw [if_pos h]
      rcases ih x with h1 | h1
      · exact Or.inr (by simp [h1])
      · exact Or.inr (by simp [h1])
    · rw [if_neg h]
      rcases ih b with h1 | h1
      · exact Or.inl h1
      · exact Or.inr (by simp [h1])

theorem pyMinBy_le {α : Type} (key : α → ℚ) (b : α) (l : List α) :
    key (pyMinBy key b l) ≤ key b ∧ ∀ x ∈ l, key (pyMinBy key b l) ≤ key x := by
  induction l generalizing b with
  | nil => exact ⟨le_refl _, by intro x hx; cases hx⟩
  | cons y ys ih =>
    simp only [pyMinBy]
    by_cases h : key y < key b
    · rw [if_pos h]
      refine ⟨le_trans (ih y).1 (le_of_lt h), ?_⟩
      intro x hx
      rcases List.mem_cons.mp hx with rfl | hx
      · exact (ih x).1
      · exact (ih y).2 x hx
    · rw [if_neg h]
      refine ⟨(ih b).1, ?_⟩
      intro x hx
      rcases List.mem_cons.mp hx with rfl | hx
      · exact le_trans (ih b).1 (le_of_not_lt h)
      · exact (ih b).2 x hx

/-- Selection step of `_evict_one_candidate`:
`min(matches, key=lambda m: match_tuple(m)[0])` where a match missing its
`timestamp` metadata defaults to `time.time()` (the parameter `now`); an
empty match list selects nothing (`if not matches: return`). -/
def selectOldest (now : ℚ) : List EMatch → Option EMatch
  | [] => none
  | m :: ms => some (pyMinBy (fun x => x.timestamp.getD now) m ms)

/-- Outcomes of the store calls `_evict_one_candidate` makes: `query k` is
the match list returned by `index.query(top_k=k, ...)` (`none`: the query
raised), `deleteOk id` tells whether `index.delete(ids=[id])` succeeds, and
`now` is `time.time()`. -/
structure EvictEnv where
  query : Nat → Option (List EMatch)
  deleteOk : String → Bool
  now : ℚ

/-- The `top_k` constant of the eviction sample query. -/
def evictTopK : Nat := 10

/-- `PineconeManager._evict_one_candidate`: query a sample of `top_k = 10`
candidates, pick the one with the smallest (defaulted) timestamp, and delete
it by id unless the id is falsy. Every failure is caught and the cycle is
skipped. Returns the id of the deleted record, or `none` when nothing was
deleted. -/
def _evict_one_candidate (env : EvictEnv) : Option String :=
  match env.query evictTopK with
  | none => none
  | some sample =>
    match selectOldest env.now sample with
    | none => none
    | some oldest =>
      if matchId oldest = "" then none
      else if env.deleteOk (matchId oldest) then some (matchId oldest)
      else none

/-! ## Retry ingestion client (`AudioWorker.ingest_to_senso`) -/

/-- Outcome of one `requests.post` to the ingestion endpoint: a 2xx response
whose body's `id` field is `id` (possibly absent), a non-2xx response
(`raise_for_status` raises `HTTPError`), or a network-level
`RequestException`. -/
inductive NetOutcome where
  | success (id : Option String)
  | httpError
  | netError
deriving DecidableEq, Repr

/-- The tenacity decorator arguments on `ingest_to_senso`:
`stop_after_attempt(3)`. -/
def retryMaxAttempts : Nat := 3

/-- `wait_exponential(multiplier=1, min=2, max=10)`: backoff lower bound. -/
def retryWaitMin : ℚ := 2

/-- `wait_exponential(multiplier=1, min=2, max=10)`: backoff upper bound. -/
def retryWaitMax : ℚ := 10

/-- One call of the body of `ingest_to_senso` (the function tenacity wraps),
given the outcome `net i` of the `i`-th POST the process would make. Returns
the Python result (`Except.error` would mean an uncaught exception) together
with the number of network attempts this call performed. The guards return
`None` without any request; every exception of the POST path is caught
inside the function and converted to a `None` return. -/
def ingestAttempt (apiKey : Option String) (text : String)
    (net : Nat → NetOutcome) (i : Nat) : Except PyExn (Option String) × Nat :=
  if pyFalsyStr apiKey then (Except.ok none, 0)
  else if text = "" ∨ pyStrip text = "" then (Except.ok none, 0)
  else
    match net i with
    | NetOutcome.success id => (Except.ok id, 1)
    | NetOutcome.httpError => (Except.ok none, 1)
    | NetOutcome.netError => (Except.ok none, 1)

/-- Tenacity retry semantics: run attempt `i`; a normal return ends the
call, an exception is retried while `fuel` attempts remain (`fuel`
= `max_attempts - 1` at the first call). Accumulates the number of network
attempts across retries. -/
def tenacityRetryAux {β : Type} (f : Nat → Except PyExn β × Nat) :
    Nat → Nat → Except PyExn β × Nat
  | i, 0 => f i
  | i, fuel + 1 =>
    match f i with
    | (Except.ok v, n) => (Except.ok v, n)
    | (Except.error _, n) =>
      let r := tenacityRetryAux f (i + 1) fuel
      (r.1, n + r.2)

/-- `AudioWorker.ingest_to_senso` with its `@retry` decorator: the wrapped
body under tenacity's retry policy. Returns the Python result and the total
number of network attempts made. -/
def ingest_to_senso (apiKey : Option String) (text : String)
    (net : Nat → NetOutcome) : Except PyExn (Option String) × Nat :=
  tenacityRetryAux (ingestAttempt apiKey text net) 0 (retryMaxAttempts - 1)

/-! ## Async store gateway (`PineconeManager`) -/

/-- The arguments captured by `executor.submit(self._upsert_transcription_sync,
text, speaker, timestamp)`. -/
structure SubmittedTask where
  text : String
  speaker : String
  timestamp : ℚ
deriving DecidableEq, Repr

/-- `PineconeManager.store_transcription_async`: skip (return `None`,
enqueuing nothing) when the text is empty or whitespace, otherwise submit
the upsert task to the pool and return its future. -/
def store_transcription_async (text speaker : String) (ts : ℚ) :
    Option SubmittedTask :=
  if text = "" ∨ pyStrip text = "" then none
  else some ⟨text, speaker, ts⟩

/-- Python `int(timestamp)`: truncation toward zero. -/
def pyInt (q : ℚ) : ℤ :=
  if 0 ≤ q then ⌊q⌋ else ⌈q⌉

/-- The record id `f"transcript_{int(timestamp)}_{speaker}"`. -/
def recordId (speaker : String) (ts : ℚ) : String :=
  "transcript_" ++ toString (pyInt ts) ++ "_" ++ speaker

/-- A store call made by the background task, in order: the embedding
computation, the call to `_evict_one_candidate` (recording which record it
deleted, if any), and the `index.upsert` of the new record. -/
inductive StoreEvent where
  | embed
  | evictAttempt (deleted : Option String)
  | upsert (id : String)
deriving DecidableEq, Repr

/-- Outcomes of the external calls `_upsert_transcription_sync` makes:
whether `generate_embedding` succeeds, the reported total record count used
by `_should_evict` (`none`: stats raised or the count is absent), the
environment of `_evict_one_candidate`, and whether `index.upsert`
succeeds. -/
structure TaskEnv where
  embedOk : Bool
  statsTotal : Option ℤ
  evictEnv : EvictEnv
  upsertOk : Bool

/-- The `try` block of `_upsert_transcription_sync`: embed, evict when
`_should_evict` holds, then upsert; an embedding or upsert failure raises
(`Except.error`). Also returns the trace of store calls attempted, in
order. -/
def upsertBody (maxRecords : ℤ) (env : TaskEnv) (speaker : String) (ts : ℚ) :
    Except PyExn Bool × List StoreEvent :=
  if env.embedOk then
    let evictEvents :=
      if _should_evict maxRecords env.statsTotal then
        [StoreEvent.evictAttempt (_evict_one_candidate env.evictEnv)]
      else []
    let tr := StoreEvent.embed :: evictEvents ++ [StoreEvent.upsert (recordId speaker ts)]
    if env.upsertOk then (Except.ok true, tr) else (Except.error PyExn.err, tr)
  else (Except.error PyExn.err, [StoreEvent.embed])

/-- `PineconeManager._upsert_transcription_sync`: the `try` block with its
`except Exception` handler, which converts any exception into a normal
`False` return. Returns the boolean result and the trace of store calls. -/
def _upsert_transcription_sync (maxRecords : ℤ) (env : TaskEnv)
    (speaker : String) (ts : ℚ) : Bool × List StoreEvent :=
  match upsertBody maxRecords env speaker ts with
  | (Except.ok b, tr) => (b, tr)
  | (Except.error _, tr) => (false, tr)

/-- The outcome the worker pool stores in a future created for
`_upsert_transcription_sync`: the callable returned normally with a boolean
on every path (its `except` handler returns `False`), so the future holds
`TaskOutcome.ok` of that boolean. -/
def submittedOutcome (maxRecords : ℤ) (env : TaskEnv) (speaker : String)
    (ts : ℚ) : TaskOutcome :=
  match upsertBody maxRecords env speaker ts with
  | (Except.ok b, _) => TaskOutcome.ok b
  | (Except.error _, _) => TaskOutcome.ok false

/-! ## Orchestrator loop body (`AudioWorker.run`) -/

/-- `AudioWorker.diarize`: placeholder diarization, always speaker `"A"`. -/
def diarize (_audio : Unit) : String := "A"

/-- The log line an iteration of `run` emits. -/
inductive LogKind where
  | captureFail
  | noSpeech
  | ingested (speaker cid : String)
  | localOnly (speaker : String)
deriving DecidableEq, Repr

/-- The outcome part of the iteration log:
`if content_id: ... → {content_id}` else `... → LOCAL ONLY` (an empty-string
id is falsy). -/
def logOutcome (speaker : String) (cid : Option String) : LogKind :=
  match cid with
  | some c => if c = "" then LogKind.localOnly speaker else LogKind.ingested speaker c
  | none => LogKind.localOnly speaker

/-- One iteration of the `while True` loop of `AudioWorker.run`: capture
(`none` = capture failed, sleep and retry), transcribe (`transcribed` is the
already-stripped text `transcribe_audio` returns; empty = no speech),
diarize, then `ingest_to_senso` only when the API key is truthy. Returns
`none` if an exception would escape the loop body (unreachable here), else
the log line and the number of network attempts of the iteration. -/
def runIteration (apiKey : Option String) (captured : Option Unit)
    (transcribed : String) (net : Nat → NetOutcome) :
    Option (LogKind × Nat) :=
  match captured with
  | none => some (LogKind.captureFail, 0)
  | some audio =>
    if transcribed = "" then some (LogKind.noSpeech, 0)
    else
      let speaker := diarize audio
      if pyFalsyStr apiKey then some (logOutcome speaker none, 0)
      else
        match ingest_to_senso apiKey transcribed net with
        | (Except.ok cid, n) => some (logOutcome speaker cid, n)
        | (Except.error _, _) => none

/-! ## Claim theorems -/

/-- C1: the claimed retry behaviour fails on the code. With an API key and
non-empty text, a network script whose first two attempts fail and whose
third would succeed yields exactly ONE network attempt and no id: every
exception is caught inside `ingest_to_senso` and converted to a `None`
return, so the tenacity retry decorator never observes a failure and never
retries. -/
theorem c1_retry_never_fires :
    ingest_to_senso (some "key") "hello"
      (fun i => if i < 2 then NetOutcome.netError else NetOutcome.success (some "cid-123"))
      = (Except.ok none, 1) := rfl

/-- C2 counterexample: with `max_records = 0` and a reported count of `0`,
the count is ≥ `max_records` yet `_should_evict` returns `false` (Python
truthiness: `bool(0 and ...)` is `False`), so "true iff count ≥ max_records"
fails. -/
theorem c2_zero_count_counterexample :
    ¬ ((_should_evict 0 (some 0) = true) ↔ (0:ℤ) ≥ 0) := by
  decide

/-- C2 (amended): `_should_evict` returns true iff the reported count is
nonzero and ≥ `max_records`; consequently for every `max_records ≥ 1` it
returns true at count = `max_records` and false at count =
`max_records - 1`. -/
theorem c2_count_threshold (mr total : ℤ) (h1 : 1 ≤ mr) :
    (_should_evict mr (some total) = true ↔ (total ≠ 0 ∧ mr ≤ total)) ∧
    _should_evict mr (some mr) = true ∧
    _should_evict mr (some (mr - 1)) = false := by
  refine ⟨?_, ?_, ?_⟩
  · simp [_should_evict]
  · have h0 : mr ≠ 0 := by omega
    simp [_should_evict, h0]
  · simp only [_should_evict, Bool.and_eq_false_iff]
    right
    simp only [decide_eq_false_iff_not]
    omega

/-- C2 witness: the amended statement instantiated at `max_records = 3` with
reported count `5`. -/
theorem c2_count_threshold_witness :
    (1:ℤ) ≤ 3 ∧
    ((_should_evict 3 (some 5) = true ↔ ((5:ℤ) ≠ 0 ∧ (3:ℤ) ≤ 5)) ∧
      _should_evict 3 (some 3) = true ∧
      _should_evict 3 (some (3 - 1)) = false) :=
  ⟨by norm_num, c2_count_threshold 3 5 (by norm_num)⟩

/-- C5: for every text whose trimmed form is empty, the gateway's
`store_transcription_async` returns `None` without enqueuing a task, and
`ingest_to_senso` returns `None` with zero network attempts, for any API-key
configuration. -/
theorem c5_empty_text_skips (text speaker : String) (ts : ℚ)
    (apiKey : Option String) (net : Nat → NetOutcome)
    (h : pyStrip text = "") :
    store_transcription_async text speaker ts = none ∧
    ingest_to_senso apiKey text net = (Except.ok none, 0) := by
  constructor
  · simp [store_transcription_async, h]
  · have hatt : ingestAttempt apiKey text net 0 = (Except.ok none, 0) := by
      unfold ingestAttempt
      cases hk : pyFalsyStr apiKey <;> simp [hk, h]
    simp [ingest_to_senso, retryMaxAttempts, tenacityRetryAux, hatt]

/-- C5 witness: a one-space text with an API key set. -/
theorem c5_empty_text_skips_witness :
    pyStrip " " = "" ∧
    (store_transcription_async " " "A" (5:ℚ) = none ∧
      ingest_to_senso (some "key") " " (fun _ => NetOutcome.netError) =
        (Except.ok none, 0)) :=
  ⟨rfl, c5_empty_text_skips " " "A" 5 (some "key") (fun _ => NetOutcome.netError) rfl⟩

/-- C6: `check_storage_status` maps an absent handle to `skipped`, an
unfinished task to `pending`, a completed task returning `True`/`False` to
`success`/`failed`, and a task that raised to `error`. -/
theorem c6_poll_status_mapping :
    check_storage_status none = "skipped" ∧
    check_storage_status (some FutureState.pending) = "pending" ∧
    check_storage_status (some (FutureState.done (TaskOutcome.ok true))) = "success" ∧
    check_storage_status (some (FutureState.done (TaskOutcome.ok false))) = "failed" ∧
    check_storage_status (some (FutureState.done TaskOutcome.exn)) = "error" :=
  ⟨rfl, rfl, rfl, rfl, rfl⟩

/-- C7: polling is idempotent on terminal states — once a future's task has
completed, every later poll returns the same status as the first. -/
theorem c7_poll_idempotent (f : FutureTimeline) (t u : Nat) (r : TaskOutcome)
    (hle : t ≤ u) (ht : f.state t = FutureState.done r) :
    check_storage_status (some (f.state u)) = check_storage_status (some (f.state t)) := by
  rw [ht, f.stable_ge hle ht]

/-- A concrete future timeline that is already completed with result
`True`. -/
def alwaysDoneTrue : FutureTimeline :=
  ⟨fun _ => FutureState.done (TaskOutcome.ok true), fun _ _ h => h⟩

/-- C7 witness: polling the completed timeline at instants 0 and 3. -/
theorem c7_poll_idempotent_witness :
    (0:Nat) ≤ 3 ∧
    check_storage_status (some (alwaysDoneTrue.state 3)) =
      check_storage_status (some (alwaysDoneTrue.state 0)) :=
  ⟨Nat.zero_le 3,
    c7_poll_idempotent alwaysDoneTrue 0 3 (TaskOutcome.ok true) (Nat.zero_le 3) rfl⟩

/-- C8: when no API key is configured (absent or empty) and the
transcription is non-empty, the loop iteration logs `LOCAL ONLY` for the
(constant) speaker and makes zero network attempts. -/
theorem c8_local_only (apiKey : Option String) (audio : Unit) (text : String)
    (net : Nat → NetOutcome) (hkey : apiKey = none ∨ apiKey = some "")
    (htext : text ≠ "") :
    runIteration apiKey (some audio) text net = some (LogKind.localOnly "A", 0) := by
  have hfalsy : pyFalsyStr apiKey = true := by
    rcases hkey with rfl | rfl <;> rfl
  simp [runIteration, htext, hfalsy, diarize, logOutcome]

/-- C8 witness: no API key, transcription `"hello"`. -/
theorem c8_local_only_witness :
    runIteration none (some ()) "hello" (fun _ => NetOutcome.netError) =
      some (LogKind.localOnly "A", 0) :=
  c8_local_only none () "hello" (fun _ => NetOutcome.netError) (Or.inl rfl) (by decide)

/-- Characterization of a successful eviction: it came from a successful
query, the heuristically selected candidate, a truthy id, and a successful
delete. -/
theorem evict_some_elim (env : EvictEnv) (id : String)
    (h : _evict_one_candidate env = some id) :
    ∃ sample, env.query evictTopK = some sample ∧
      ∃ oldest, selectOldest env.now sample = some oldest ∧
        matchId oldest = id ∧ env.deleteOk id = true := by
  unfold _evict_one_candidate at h
  split at h
  · exact absurd h (by simp)
  · rename_i sample hq
    split at h
    · exact absurd h (by simp)
    · rename_i oldest hs
      split at h
      · exact absurd h (by simp)
      · split at h
        · have hin := Option.some.inj h
          rename_i hne hdel
          exact ⟨sample, hq, oldest, hs, hin, hin ▸ hdel⟩
        · exact absurd h (by simp)

/-- C3: `_evict_one_candidate` examines a sample of at most 10 candidates
(`top_k = 10`); a failed or empty query deletes nothing; a record is deleted
only when its delete call succeeds; a failing delete of the selected
candidate deletes nothing; and when every sampled record carries a
timestamp, the deleted record is one of the sample whose timestamp is ≤
every sampled timestamp. The function is total: no exception propagates. -/
theorem c3_evicts_min_of_sample (env : EvictEnv)
    (hbound : ∀ k l, env.query k = some l → l.length ≤ k) :
    (env.query evictTopK = none → _evict_one_candidate env = none) ∧
    (env.query evictTopK = some [] → _evict_one_candidate env = none) ∧
    (∀ l, env.query evictTopK = some l → l.length ≤ 10) ∧
    (∀ id, _evict_one_candidate env = some id → env.deleteOk id = true) ∧
    (∀ l m, env.query evictTopK = some l → selectOldest env.now l = some m →
      env.deleteOk (matchId m) = false → _evict_one_candidate env = none) ∧
    (∀ l id, env.query evictTopK = some l →
      (∀ m ∈ l, m.timestamp.isSome = true) →
      _evict_one_candidate env = some id →
      ∃ m ∈ l, matchId m = id ∧ ∃ t : ℚ, m.timestamp = some t ∧
        ∀ m2 ∈ l, ∀ t2 : ℚ, m2.timestamp = some t2 → t ≤ t2) := by
  refine ⟨?_, ?_, ?_, ?_, ?_, ?_⟩
  · intro h
    simp [_evict_one_candidate, h]
  · intro h
    simp [_evict_one_candidate, h, selectOldest]
  · intro l h
    simpa [evictTopK] using hbound evictTopK l h
  · intro id h
    obtain ⟨sample, hq, oldest, hs, hid, hdel⟩ := evict_some_elim env id h
    exact hdel
  · intro l m hq hs hdel
    simp only [_evict_one_candidate, hq, hs, hdel]
    split <;> simp
  · intro l id hq hts h
    obtain ⟨sample, hq2, oldest, hs, hid, hdel⟩ := evict_some_elim env id h
    rw [hq] at hq2
    have hsl : l = sample := Option.some.inj hq2
    subst hsl
    cases l with
    | nil => simp [selectOldest] at hs
    | cons x xs =>
      have holdest : oldest = pyMinBy (fun m => m.timestamp.getD env.now) x xs :=
        (Option.some.inj hs).symm
      have hmem : oldest ∈ x :: xs := by
        rcases pyMinBy_mem (fun m => m.timestamp.getD env.now) x xs with h1 | h1
        · rw [holdest, h1]; exact List.mem_cons_self x xs
        · rw [holdest]; exact List.mem_cons_of_mem x h1
      have hoption : oldest.timestamp.isSome = true := hts oldest hmem
      obtain ⟨t, htv⟩ := Option.isSome_iff_exists.mp hoption
      refine ⟨oldest, hmem, hid, t, htv, ?_⟩
      intro m2 hm2 t2 ht2
      have hle := pyMinBy_le (fun m => m.timestamp.getD env.now) x xs
      have hkey : oldest.timestamp.getD env.now ≤ m2.timestamp.getD env.now := by
        rw [holdest]
        rcases List.mem_cons.mp hm2 with rfl | hm2x
        · exact hle.1
        · exact hle.2 m2 hm2x
      rw [htv, ht2] at hkey
      simpa using hkey

/-- A concrete eviction environment: a two-record sample (timestamps 50 and
3), deletes always succeed, current time 100. -/
def evictEnvW : EvictEnv :=
  ⟨fun k => some (List.take k [⟨some "a", none, some 50⟩, ⟨some "b", none, some 3⟩]),
   fun _ => true, 100⟩

/-- C3 witness: on `evictEnvW` the candidate with the smallest timestamp
(`"b"`, timestamp 3) is deleted, and its delete call succeeded. -/
theorem c3_evicts_min_of_sample_witness :
    _evict_one_candidate evictEnvW = some "b" ∧ evictEnvW.deleteOk "b" = true :=
  ⟨by decide,
    (c3_evicts_min_of_sample evictEnvW (by
      intro k l h
      have h2 : List.take k [(⟨some "a", none, some 50⟩ : EMatch),
          ⟨some "b", none, some 3⟩] = l := Option.some.inj h
      rw [← h2, List.length_take]
      exact min_le_left _ _)).2.2.2.1 "b" (by decide)⟩

/-- C4: in the background task `_upsert_transcription_sync` (with the
embedding succeeding so that the capacity check is reached), if the capacity
check returns true then the trace of store calls is exactly embed, one
eviction attempt, then the upsert of the new record; if the reported count
is below `max_records`, the trace contains no eviction attempt before the
upsert. -/
theorem c4_evict_before_upsert (mr : ℤ) (env : TaskEnv) (speaker : String)
    (ts : ℚ) (hembed : env.embedOk = true) :
    (_should_evict mr env.statsTotal = true →
      (_upsert_transcription_sync mr env speaker ts).2 =
        [StoreEvent.embed,
         StoreEvent.evictAttempt (_evict_one_candidate env.evictEnv),
         StoreEvent.upsert (recordId speaker ts)]) ∧
    (∀ total, env.statsTotal = some total → total < mr →
      (_upsert_transcription_sync mr env speaker ts).2 =
        [StoreEvent.embed, StoreEvent.upsert (recordId speaker ts)]) := by
  constructor
  · intro h
    unfold _upsert_transcription_sync upsertBody
    rw [hembed]
    simp only [h, if_true]
    cases hup : env.upsertOk <;> simp
  · intro total htot hlt
    have hse : _should_evict mr env.statsTotal = false := by
      simp only [_should_evict, htot, Bool.and_eq_false_iff]
      right
      simp only [decide_eq_false_iff_not]
      omega
    unfold _upsert_transcription_sync upsertBody
    rw [hembed]
    simp only [hse]
    cases hup : env.upsertOk <;> simp

/-- A concrete task environment: embedding succeeds, the store reports one
record against `max_records = 1`, and the upsert succeeds. -/
def taskEnvW : TaskEnv := ⟨true, some 1, evictEnvW, true⟩

/-- C4 witness: with the store at capacity (`count = max_records = 1`) the
trace is embed, one eviction attempt, then the upsert. -/
theorem c4_evict_before_upsert_witness :
    (_upsert_transcription_sync 1 taskEnvW "A" 5).2 =
      [StoreEvent.embed,
       StoreEvent.evictAttempt (_evict_one_candidate taskEnvW.evictEnv),
       StoreEvent.upsert (recordId "A" 5)] :=
  (c4_evict_before_upsert 1 taskEnvW "A" 5 rfl).1 (by decide)

/-- C9: a future holding a gateway-submitted task can only be observed as
`pending`, `success` or `failed`: the task body returns a boolean on every
path (its `except` handler converts any exception to `False`), so the
`error` branch of `check_storage_status` is unreachable for such futures. -/
theorem c9_gateway_poll_never_error (mr : ℤ) (env : TaskEnv) (speaker : String)
    (ts : ℚ) (st : FutureState)
    (h : st = FutureState.pending ∨
      st = FutureState.done (submittedOutcome mr env speaker ts)) :
    check_storage_status (some st) = "pending" ∨
    check_storage_status (some st) = "success" ∨
    check_storage_status (some st) = "failed" := by
  rcases h with rfl | rfl
  · exact Or.inl rfl
  · unfold submittedOutcome
    cases hub : upsertBody mr env speaker ts with
    | mk r tr =>
      cases r with
      | ok b =>
        cases b
        · exact Or.inr (Or.inr rfl)
        · exact Or.inr (Or.inl rfl)
      | error e => exact Or.inr (Or.inr rfl)

/-- C9 witness: the completed gateway task on the concrete environment polls
as one of the three non-error statuses. -/
theorem c9_gateway_poll_never_error_witness :
    check_storage_status (some (FutureState.done (submittedOutcome 1 taskEnvW "A" 5))) = "pending" ∨
    check_storage_status (some (FutureState.done (submittedOutcome 1 taskEnvW "A" 5))) = "success" ∨
    check_storage_status (some (FutureState.done (submittedOutcome 1 taskEnvW "A" 5))) = "failed" :=
  c9_gateway_poll_never_error 1 taskEnvW "A" 5
    (FutureState.done (submittedOutcome 1 taskEnvW "A" 5)) (Or.inr rfl)

/-- C10: a sampled match missing its `timestamp` metadata is keyed by the
current time, so whenever the sample contains a record with a recorded
timestamp earlier than the current time, the selected (deleted) candidate is
never one missing its timestamp. -/
theorem c10_missing_timestamp_never_selected (now : ℚ) (l : List EMatch)
    (m0 sel : EMatch) (t0 : ℚ) (hmem : m0 ∈ l) (ht0 : m0.timestamp = some t0)
    (hlt : t0 < now) (hsel : selectOldest now l = some sel) :
    sel.timestamp.isSome = true := by
  cases l with
  | nil => cases hmem
  | cons x xs =>
    have hsel2 : sel = pyMinBy (fun m => m.timestamp.getD now) x xs :=
      (Option.some.inj hsel).symm
    have hle : sel.timestamp.getD now ≤ m0.timestamp.getD now := by
      rw [hsel2]
      rcases List.mem_cons.mp hmem with rfl | hx
      · exact (pyMinBy_le (fun m => m.timestamp.getD now) m0 xs).1
      · exact (pyMinBy_le (fun m => m.timestamp.getD now) x xs).2 m0 hx
    rw [ht0] at hle
    simp only [Option.getD_some] at hle
    by_contra hnone
    have hn : sel.timestamp = none := Option.not_isSome_iff_eq_none.mp (by
      simpa using hnone)
    rw [hn] at hle
    simp only [Option.getD_none] at hle
    exact absurd hle (not_le.mpr hlt)

/-- A sampled match with no `timestamp` metadata. -/
def mNoTsW : EMatch := ⟨some "x", none, none⟩

/-- A sampled match with recorded timestamp 3. -/
def mOldW : EMatch := ⟨some "b", none, some 3⟩

/-- C10 witness: at current time 100, the sample `[mNoTsW, mOldW]` selects
`mOldW` (timestamp 3), a record that does carry a timestamp. -/
theorem c10_missing_timestamp_never_selected_witness :
    selectOldest 100 [mNoTsW, mOldW] = some mOldW ∧ mOldW.timestamp.isSome = true :=
  ⟨by decide,
    c10_missing_timestamp_never_selected 100 [mNoTsW, mOldW] mOldW mOldW 3
      (by decide) rfl (by norm_num) (by decide)⟩

end HeyListen
